import Mathlib

/-!
Verification of the motion-controlled fruit-cutting game core.

Shallow embedding of the score/session state machine
(src/components/ScoreSystem.js), the hand-trail maintenance of the two
gesture trackers (HandTracking.updateTrails, ModernHandTracker.updateTrails
and detectHands), and the scene simulation of GameScene (index.js:
updateDifficulty, spawnObjects, updateFruits/Bombs, isPointOnPath,
pointToLineDistance, cutFruit/cutBomb, cleanupObjects, animate, setPaused).

JavaScript numbers are modelled as rationals (all operations involved are
field operations and comparisons; no rounding is exercised by the claims).
Callback notifications (onScoreChange, onTimeChange, onGameOver, onFruitCut,
onBombCut) are modelled as emitted event lists.  External collaborators
(the THREE.js camera projection, Math.random, the MediaPipe landmark
provider and the wall clock) are modelled as explicit inputs.
-/

namespace ScoreSystem

/-- State of ScoreSystem (constructor fields score, gameTime, timeRemaining,
isGameOver; the rules fruitCut = 10, bombCut = -20 are constants). -/
structure State where
  score : Int
  gameTime : ℚ
  timeRemaining : ℚ
  isGameOver : Bool
  deriving Repr, DecidableEq

/-- Callback invocations of ScoreSystem, in order of firing. -/
inductive Event where
  | scoreChange (score : Int)
  | timeChange (t : ℚ)
  | gameOver (score : Int) (timeRemaining : ℚ)
  deriving Repr, DecidableEq

/-- Fresh ScoreSystem as built by the constructor. -/
def initState : State :=
  { score := 0, gameTime := 60, timeRemaining := 60, isGameOver := false }

/-- this.rules.fruitCut -/
def rulesFruitCut : Int := 10

/-- this.rules.bombCut -/
def rulesBombCut : Int := -20

/-- notifyScoreChange: invokes onScoreChange with the current score. -/
def notifyScoreChange (s : State) : List Event := [.scoreChange s.score]

/-- notifyTimeChange: invokes onTimeChange with the current timeRemaining. -/
def notifyTimeChange (s : State) : List Event := [.timeChange s.timeRemaining]

/-- endGame: guarded by isGameOver; sets the latch and fires onGameOver with
the final score and time remaining. -/
def endGame (s : State) : State × List Event :=
  if s.isGameOver then (s, [])
  else ({ s with isGameOver := true }, [.gameOver s.score s.timeRemaining])

/-- start(): score 0, timeRemaining = gameTime, latch cleared, both
notifications fired. -/
def start (s : State) : State × List Event :=
  let s1 := { s with score := 0, timeRemaining := s.gameTime, isGameOver := false }
  (s1, notifyScoreChange s1 ++ notifyTimeChange s1)

/-- reset(): same counter reset as start(). -/
def reset (s : State) : State × List Event :=
  let s1 := { s with score := 0, timeRemaining := s.gameTime, isGameOver := false }
  (s1, notifyScoreChange s1 ++ notifyTimeChange s1)

/-- update(deltaTime): no-op when the latch is set; otherwise subtract the
delta, clamp at 0 and end the game when the clamp fired, then notify the
time change. -/
def update (dt : ℚ) (s : State) : State × List Event :=
  if s.isGameOver then (s, [])
  else
    let s1 := { s with timeRemaining := s.timeRemaining - dt }
    if s1.timeRemaining ≤ 0 then
      let s2 := { s1 with timeRemaining := 0 }
      let r := endGame s2
      (r.1, r.2 ++ notifyTimeChange r.1)
    else
      (s1, notifyTimeChange s1)

/-- cutFruit(fruitType): no-op when the latch is set; otherwise add the
fruit points, notify, and end the game when the score went negative. -/
def cutFruit (s : State) : State × List Event :=
  if s.isGameOver then (s, [])
  else
    let s1 := { s with score := s.score + rulesFruitCut }
    if s1.score < 0 then
      let r := endGame s1
      (r.1, notifyScoreChange s1 ++ r.2)
    else
      (s1, notifyScoreChange s1)

/-- cutBomb(): no-op when the latch is set; otherwise add the bomb points,
notify, and end the game when the score went negative. -/
def cutBomb (s : State) : State × List Event :=
  if s.isGameOver then (s, [])
  else
    let s1 := { s with score := s.score + rulesBombCut }
    if s1.score < 0 then
      let r := endGame s1
      (r.1, notifyScoreChange s1 ++ r.2)
    else
      (s1, notifyScoreChange s1)

/-- One externally triggered operation on the score system during a session
(reset starts a new session and is treated separately). -/
inductive Op where
  | update (dt : ℚ)
  | cutFruit
  | cutBomb
  deriving Repr, DecidableEq

/-- Dispatch one operation. -/
def step (op : Op) (s : State) : State × List Event :=
  match op with
  | .update dt => update dt s
  | .cutFruit => cutFruit s
  | .cutBomb => cutBomb s

/-- Run a sequence of operations, accumulating the fired events. -/
def run (s : State) (ops : List Op) : State × List Event :=
  match ops with
  | [] => (s, [])
  | op :: rest =>
    let r1 := step op s
    let r2 := run r1.1 rest
    (r2.1, r1.2 ++ r2.2)

/-- The state right after start() on a fresh system. -/
def startState : State := (start initState).1

/-- Recognizes onGameOver invocations among the fired events. -/
def isGameOverEvent : Event → Bool
  | .gameOver _ _ => true
  | _ => false

/-- How many onGameOver invocations a list of events contains. -/
def countGameOver (evs : List Event) : Nat :=
  (evs.filter isGameOverEvent).length

end ScoreSystem

namespace ScoreSystem

theorem step_of_gameOver (op : Op) (s : State) (h : s.isGameOver = true) :
    step op s = (s, []) := by
  cases op <;> simp [step, update, cutFruit, cutBomb, h]

theorem run_of_gameOver (ops : List Op) (s : State) (h : s.isGameOver = true) :
    run s ops = (s, []) := by
  induction ops with
  | nil => rfl
  | cons op rest ih =>
    simp [run, step_of_gameOver op s h, ih]

/-- Run a sequence of update(dt) calls. -/
def runUpdates (s : State) (dts : List ℚ) : State × List Event :=
  run s (dts.map Op.update)

end ScoreSystem

namespace ScoreSystem

theorem countGameOver_append (a b : List Event) :
    countGameOver (a ++ b) = countGameOver a + countGameOver b := by
  simp [countGameOver]

theorem countGameOver_step (op : Op) (s : State) (h : s.isGameOver = false) :
    countGameOver (step op s).2 = if (step op s).1.isGameOver then 1 else 0 := by
  cases op with
  | update dt =>
    by_cases hle : s.timeRemaining - dt ≤ 0 <;>
      simp [step, update, endGame, notifyTimeChange, countGameOver,
        isGameOverEvent, h, hle]
  | cutFruit =>
    by_cases hneg : s.score + rulesFruitCut < 0 <;>
      simp [step, cutFruit, endGame, notifyScoreChange, countGameOver,
        isGameOverEvent, h, hneg]
  | cutBomb =>
    by_cases hneg : s.score + rulesBombCut < 0 <;>
      simp [step, cutBomb, endGame, notifyScoreChange, countGameOver,
        isGameOverEvent, h, hneg]

theorem countGameOver_run (ops : List Op) (s : State) (h : s.isGameOver = false) :
    countGameOver (run s ops).2 = if (run s ops).1.isGameOver then 1 else 0 := by
  induction ops generalizing s with
  | nil => simp [run, countGameOver, h]
  | cons op rest ih =>
    by_cases h1 : (step op s).1.isGameOver = true
    · have hev := countGameOver_step op s h
      have hrest := run_of_gameOver rest (step op s).1 h1
      rw [run, countGameOver_append, hev, hrest]
      simp [h1, countGameOver]
    · have hev := countGameOver_step op s h
      have hrec := ih (step op s).1 (by simpa using h1)
      rw [run, countGameOver_append, hev, hrec]
      simp [h1]

theorem runUpdates_timeRemaining (dts : List ℚ) (s : State)
    (h : (runUpdates s dts).1.isGameOver = false) :
    s.isGameOver = false
      ∧ (runUpdates s dts).1.timeRemaining = s.timeRemaining - dts.sum := by
  induction dts generalizing s with
  | nil =>
    refine ⟨by simpa [runUpdates, run] using h, ?_⟩
    simp [runUpdates, run]
  | cons d rest ih =>
    by_cases hgo : s.isGameOver = true
    · exfalso
      have : runUpdates s (d :: rest) = (s, []) := by
        simpa [runUpdates] using
          run_of_gameOver ((d :: rest).map Op.update) s hgo
      rw [this] at h
      simp [hgo] at h
    · have hgo' : s.isGameOver = false := by simpa using hgo
      by_cases hle : s.timeRemaining - d ≤ 0
      · exfalso
        have hstep : (step (Op.update d) s).1.isGameOver = true := by
          simp [step, update, endGame, hgo', hle]
        have hrest := run_of_gameOver (rest.map Op.update)
          (step (Op.update d) s).1 hstep
        have : (runUpdates s (d :: rest)).1 = (step (Op.update d) s).1 := by
          simp [runUpdates, run, hrest]
        rw [this] at h
        rw [h] at hstep
        exact Bool.false_ne_true hstep
      · have hs1 : step (Op.update d) s
            = ({ s with timeRemaining := s.timeRemaining - d },
               [Event.timeChange (s.timeRemaining - d)]) := by
          simp [step, update, notifyTimeChange, hgo', hle]
        have hrun : (runUpdates s (d :: rest)).1
            = (runUpdates { s with timeRemaining := s.timeRemaining - d } rest).1 := by
          simp [runUpdates, run, hs1]
        rw [hrun] at h
        refine ⟨hgo', ?_⟩
        rw [hrun, (ih _ h).2, List.sum_cons]
        show s.timeRemaining - d - rest.sum = s.timeRemaining - (d + rest.sum)
        ring

/-- Invariant: a non-latched state has a strictly positive time remaining. -/
def trInv (s : State) : Prop := s.isGameOver = false → 0 < s.timeRemaining

theorem trInv_step (op : Op) (s : State) (h : trInv s) : trInv (step op s).1 := by
  by_cases hgo : s.isGameOver = true
  · simpa [step_of_gameOver op s hgo] using h
  · have hgo' : s.isGameOver = false := by simpa using hgo
    have hpos := h hgo'
    intro hafter
    cases op with
    | update dt =>
      by_cases hle : s.timeRemaining - dt ≤ 0
      · exfalso
        simp [step, update, endGame, notifyTimeChange, hgo', hle] at hafter
      · simp only [step] at hafter ⊢
        simp [update, endGame, notifyTimeChange, hgo', hle] at hafter ⊢
        linarith [lt_of_not_le hle]
    | cutFruit =>
      by_cases hneg : s.score + 10 < 0
      · exfalso
        simp [step, cutFruit, endGame, notifyScoreChange, rulesFruitCut,
          hgo', hneg] at hafter
      · simp only [step] at hafter ⊢
        simp [cutFruit, endGame, notifyScoreChange, rulesFruitCut,
          hgo', hneg] at hafter ⊢
        exact hpos
    | cutBomb =>
      by_cases hneg : s.score + (-20) < 0
      · exfalso
        simp [step, cutBomb, endGame, notifyScoreChange, rulesBombCut,
          hgo', hneg] at hafter
      · simp only [step] at hafter ⊢
        simp [cutBomb, endGame, notifyScoreChange, rulesBombCut,
          hgo', hneg] at hafter ⊢
        exact hpos

theorem trInv_run (ops : List Op) (s : State) (h : trInv s) : trInv (run s ops).1 := by
  induction ops generalizing s with
  | nil => simpa [run] using h
  | cons op rest ih =>
    have := ih (step op s).1 (trInv_step op s h)
    simpa [run] using this

/-- Invariant: whenever a run of update calls has latched the game over, the
remaining time was clamped to zero. -/
def goZero (s : State) : Prop := s.isGameOver = true → s.timeRemaining = 0

theorem goZero_update (dt : ℚ) (s : State) (h : goZero s) :
    goZero (update dt s).1 := by
  by_cases hgo : s.isGameOver = true
  · simpa [update, hgo] using h
  · have hgo' : s.isGameOver = false := by simpa using hgo
    by_cases hle : s.timeRemaining - dt ≤ 0 <;>
      simp [update, endGame, notifyTimeChange, goZero, hgo', hle]

theorem goZero_runUpdates (dts : List ℚ) (s : State) (h : goZero s) :
    goZero (runUpdates s dts).1 := by
  induction dts generalizing s with
  | nil => simpa [runUpdates, run] using h
  | cons d rest ih =>
    have := ih (step (Op.update d) s).1 (goZero_update d s h)
    simpa [runUpdates, run] using this

/-- The invariant of C10: outside game over the score is nonnegative, and it
never drops below -20 (one bomb past zero). -/
def scoreInvariant (s : State) : Prop :=
  (s.isGameOver = false → 0 ≤ s.score) ∧ -20 ≤ s.score

theorem scoreInvariant_step (op : Op) (s : State) (h : scoreInvariant s) :
    scoreInvariant (step op s).1 := by
  by_cases hgo : s.isGameOver = true
  · simpa [step_of_gameOver op s hgo] using h
  · have hgo' : s.isGameOver = false := by simpa using hgo
    have hsc := h.1 hgo'
    cases op with
    | update dt =>
      by_cases hle : s.timeRemaining - dt ≤ 0
      · constructor
        · intro hf
          exfalso
          simp [step, update, endGame, notifyTimeChange, hgo', hle] at hf
        · simp [step, update, endGame, notifyTimeChange, hgo', hle]
          omega
      · constructor
        · intro _
          simp [step, update, endGame, notifyTimeChange, hgo', hle]
          omega
        · simp [step, update, endGame, notifyTimeChange, hgo', hle]
          omega
    | cutFruit =>
      by_cases hneg : s.score + 10 < 0
      · constructor
        · intro hf
          exfalso
          simp [step, cutFruit, endGame, notifyScoreChange, rulesFruitCut,
            hgo', hneg] at hf
        · simp [step, cutFruit, endGame, notifyScoreChange, rulesFruitCut,
            hgo', hneg]
          omega
      · constructor
        · intro _
          simp [step, cutFruit, endGame, notifyScoreChange, rulesFruitCut,
            hgo', hneg]
          omega
        · simp [step, cutFruit, endGame, notifyScoreChange, rulesFruitCut,
            hgo', hneg]
          omega
    | cutBomb =>
      by_cases hneg : s.score + (-20) < 0
      · constructor
        · intro hf
          exfalso
          simp [step, cutBomb, endGame, notifyScoreChange, rulesBombCut,
            hgo', hneg] at hf
        · simp [step, cutBomb, endGame, notifyScoreChange, rulesBombCut,
            hgo', hneg]
          omega
      · constructor
        · intro _
          simp [step, cutBomb, endGame, notifyScoreChange, rulesBombCut,
            hgo', hneg]
          omega
        · simp [step, cutBomb, endGame, notifyScoreChange, rulesBombCut,
            hgo', hneg]
          omega

theorem scoreInvariant_run (ops : List Op) (s : State) (h : scoreInvariant s) :
    scoreInvariant (run s ops).1 := by
  induction ops generalizing s with
  | nil => simpa [run] using h
  | cons op rest ih =>
    have := ih (step op s).1 (scoreInvariant_step op s h)
    simpa [run] using this

end ScoreSystem

/-- C1: from any non-game-over state, cutFruit adds exactly +10 to the score
and cutBomb adds exactly -20; each fires an onScoreChange notification with
the new score as its first event; and the resulting latch state is set
exactly when the resulting score is negative — regardless of the time
remaining. -/
theorem C1_cut_scoring (s : ScoreSystem.State) (h : s.isGameOver = false) :
    ((ScoreSystem.cutFruit s).1.score = s.score + 10
      ∧ (ScoreSystem.cutFruit s).2.head? = some (.scoreChange (s.score + 10))
      ∧ (ScoreSystem.cutFruit s).1.isGameOver = decide (s.score + 10 < 0)
      ∧ (ScoreSystem.cutFruit s).1.timeRemaining = s.timeRemaining)
    ∧ ((ScoreSystem.cutBomb s).1.score = s.score - 20
      ∧ (ScoreSystem.cutBomb s).2.head? = some (.scoreChange (s.score - 20))
      ∧ (ScoreSystem.cutBomb s).1.isGameOver = decide (s.score - 20 < 0)
      ∧ (ScoreSystem.cutBomb s).1.timeRemaining = s.timeRemaining) := by
  constructor
  · by_cases hneg : s.score + 10 < 0 <;>
      simp [ScoreSystem.cutFruit, ScoreSystem.endGame, ScoreSystem.notifyScoreChange,
        ScoreSystem.rulesFruitCut, h, hneg]
  · by_cases hneg : s.score + (-20) < 0 <;>
      simp [ScoreSystem.cutBomb, ScoreSystem.endGame, ScoreSystem.notifyScoreChange,
        ScoreSystem.rulesBombCut, h, hneg, Int.sub_eq_add_neg]

/-- Witness for C1 at the fresh post-start state. -/
theorem C1_cut_scoring_witness :
    ((ScoreSystem.cutFruit ScoreSystem.startState).1.score = 10
      ∧ (ScoreSystem.cutBomb ScoreSystem.startState).1.isGameOver = true) := by
  have h := C1_cut_scoring ScoreSystem.startState (by decide)
  refine ⟨?_, ?_⟩
  · have := h.1.1; simpa [ScoreSystem.startState, ScoreSystem.start,
      ScoreSystem.initState] using this
  · have := h.2.2.2.1; simpa [ScoreSystem.startState, ScoreSystem.start,
      ScoreSystem.initState] using this

/-- C2: update(dt) from a non-game-over state subtracts dt from the time
remaining and clamps it at 0; the latch is set exactly when the clamp fired,
and the onGameOver event then reports timeRemaining 0, never negative.
Consequently, any sequence of update(dt >= 0) calls from the fresh post-start
state (score stays 0 >= 0 throughout) summing to at least 60 seconds ends
latched with timeRemaining 0 and exactly one onGameOver notification. -/
theorem C2_update_timeout :
    (∀ (s : ScoreSystem.State) (dt : ℚ), s.isGameOver = false →
      ((ScoreSystem.update dt s).1.timeRemaining = max 0 (s.timeRemaining - dt)
        ∧ ((ScoreSystem.update dt s).1.isGameOver = true
            ↔ s.timeRemaining - dt ≤ 0)
        ∧ (s.timeRemaining - dt ≤ 0 →
            (ScoreSystem.update dt s).2
              = [.gameOver s.score 0, .timeChange 0])))
    ∧ (∀ dts : List ℚ, (∀ d ∈ dts, 0 ≤ d) → 60 ≤ dts.sum →
        ((ScoreSystem.runUpdates ScoreSystem.startState dts).1.isGameOver = true
          ∧ (ScoreSystem.runUpdates ScoreSystem.startState dts).1.timeRemaining = 0
          ∧ ScoreSystem.countGameOver
              (ScoreSystem.runUpdates ScoreSystem.startState dts).2 = 1)) := by
  constructor
  · intro s dt h
    refine ⟨?_, ?_, ?_⟩
    · by_cases hle : s.timeRemaining - dt ≤ 0
      · rw [max_eq_left hle]
        simp [ScoreSystem.update, ScoreSystem.endGame,
          ScoreSystem.notifyTimeChange, h, hle]
      · rw [max_eq_right (le_of_lt (lt_of_not_le hle))]
        simp [ScoreSystem.update, ScoreSystem.endGame,
          ScoreSystem.notifyTimeChange, h, hle]
    · by_cases hle : s.timeRemaining - dt ≤ 0 <;>
        simp [ScoreSystem.update, ScoreSystem.endGame,
          ScoreSystem.notifyTimeChange, h, hle]
    · intro hle
      simp [ScoreSystem.update, ScoreSystem.endGame,
        ScoreSystem.notifyTimeChange, h, hle]
  · intro dts _ hsum
    have hstart : ScoreSystem.startState.isGameOver = false := by decide
    have hgo : (ScoreSystem.runUpdates ScoreSystem.startState dts).1.isGameOver
        = true := by
      by_contra hq
      have hq' : (ScoreSystem.runUpdates ScoreSystem.startState dts).1.isGameOver
          = false := by simpa using hq
      have htr := (ScoreSystem.runUpdates_timeRemaining dts _ hq').2
      have hinv : ScoreSystem.trInv
          (ScoreSystem.runUpdates ScoreSystem.startState dts).1 :=
        ScoreSystem.trInv_run _ _ (by intro _; norm_num [ScoreSystem.startState,
          ScoreSystem.start, ScoreSystem.initState])
      have hpos := hinv hq'
      rw [htr] at hpos
      have : ScoreSystem.startState.timeRemaining = 60 := by decide
      rw [this] at hpos
      linarith
    refine ⟨hgo, ?_, ?_⟩
    · have hz : ScoreSystem.goZero ScoreSystem.startState := by
        intro hc
        exact absurd hc (by decide)
      exact ScoreSystem.goZero_runUpdates dts _ hz hgo
    · have hc := ScoreSystem.countGameOver_run (dts.map ScoreSystem.Op.update)
        ScoreSystem.startState hstart
      have he : ScoreSystem.runUpdates ScoreSystem.startState dts
          = ScoreSystem.run ScoreSystem.startState (dts.map ScoreSystem.Op.update) :=
        rfl
      rw [he] at hgo ⊢
      rw [hc]
      simp [hgo]

/-- Witness for C2: a single update of 60 seconds from the fresh post-start
state latches with time 0 and one onGameOver. -/
theorem C2_update_timeout_witness :
    ((ScoreSystem.update 1 ScoreSystem.startState).1.timeRemaining = 59
      ∧ (ScoreSystem.runUpdates ScoreSystem.startState [30, 30]).1.isGameOver
          = true
      ∧ ScoreSystem.countGameOver
          (ScoreSystem.runUpdates ScoreSystem.startState [30, 30]).2 = 1) := by
  have h := C2_update_timeout
  have h1 := (h.1 ScoreSystem.startState 1 (by decide)).1
  have h2 := h.2 [30, 30] (by norm_num) (by norm_num)
  refine ⟨?_, h2.1, h2.2.2⟩
  rw [h1]
  have ht : ScoreSystem.startState.timeRemaining = 60 := by decide
  rw [ht]
  rw [max_eq_right (by norm_num : (0 : ℚ) ≤ 60 - 1)]
  norm_num

/-- C3: game over is latched: from any latched state, update, cutFruit and
cutBomb all return the state unchanged and fire no notification; reset()
clears the latch; and over any operation sequence from the fresh post-start
state, onGameOver fires exactly once if the session ended and zero times
otherwise. -/
theorem C3_gameover_latched :
    (∀ (s : ScoreSystem.State) (op : ScoreSystem.Op), s.isGameOver = true →
      ScoreSystem.step op s = (s, []))
    ∧ (∀ s : ScoreSystem.State, (ScoreSystem.reset s).1.isGameOver = false)
    ∧ (∀ ops : List ScoreSystem.Op,
        ScoreSystem.countGameOver (ScoreSystem.run ScoreSystem.startState ops).2
          = if (ScoreSystem.run ScoreSystem.startState ops).1.isGameOver
            then 1 else 0) := by
  refine ⟨fun s op h => ScoreSystem.step_of_gameOver op s h, ?_, ?_⟩
  · intro s
    simp [ScoreSystem.reset]
  · intro ops
    exact ScoreSystem.countGameOver_run ops ScoreSystem.startState (by decide)

/-- Witness for C3: a latched state absorbs a cutFruit with no events, and a
session that ends by bomb fires onGameOver exactly once. -/
theorem C3_gameover_latched_witness :
    (ScoreSystem.step .cutFruit
        { score := -10, gameTime := 60, timeRemaining := 30, isGameOver := true }
      = ({ score := -10, gameTime := 60, timeRemaining := 30,
            isGameOver := true }, [])
      ∧ ScoreSystem.countGameOver
          (ScoreSystem.run ScoreSystem.startState
            [.cutBomb, .cutBomb, .cutFruit]).2 = 1) := by
  have h := C3_gameover_latched
  refine ⟨h.1 _ _ (by decide), ?_⟩
  rw [h.2.2 [.cutBomb, .cutBomb, .cutFruit]]
  decide

/-- C10: starting fresh, or right after start() or reset(), every state
reachable by update/cutFruit/cutBomb sequences satisfies: the score is
nonnegative unless the game-over latch is set, and the score never drops
below -20. -/
theorem C10_score_nonneg_invariant (ops : List ScoreSystem.Op)
    (s : ScoreSystem.State) :
    ScoreSystem.scoreInvariant (ScoreSystem.run ScoreSystem.initState ops).1
    ∧ ScoreSystem.scoreInvariant
        (ScoreSystem.run (ScoreSystem.start s).1 ops).1
    ∧ ScoreSystem.scoreInvariant
        (ScoreSystem.run (ScoreSystem.reset s).1 ops).1 := by
  refine ⟨?_, ?_, ?_⟩
  · exact ScoreSystem.scoreInvariant_run ops _ (by constructor <;> decide)
  · refine ScoreSystem.scoreInvariant_run ops _ ?_
    constructor
    · intro _
      simp [ScoreSystem.start]
    · simp [ScoreSystem.start]
  · refine ScoreSystem.scoreInvariant_run ops _ ?_
    constructor
    · intro _
      simp [ScoreSystem.reset]
    · simp [ScoreSystem.reset]

namespace HandTrail

/-- A trail point as pushed by both trackers' updateTrails:
x, y in screen pixels and a Date.now() timestamp in milliseconds. -/
structure TrailPoint where
  x : ℚ
  y : ℚ
  timestamp : ℤ
  deriving Repr, DecidableEq

/-- The push/shift half of updateTrails: append the present hand's position
and drop the oldest point (Array.prototype.shift) when length exceeds the
maximum. -/
def appendCapped (maxLen : ℕ) (p : ℚ × ℚ) (now : ℤ)
    (trail : List TrailPoint) : List TrailPoint :=
  let pushed := trail ++ [⟨p.1, p.2, now⟩]
  if maxLen < pushed.length then pushed.drop 1 else pushed

/-- The prune half of updateTrails: keep points with
now - point.timestamp < trailRetentionTime. -/
def keepFresh (retention : ℤ) (now : ℤ) (trail : List TrailPoint) :
    List TrailPoint :=
  trail.filter (fun q => now - q.timestamp < retention)

/-- ModernHandTracker.updateTrails restricted to one hand: push and cap when
the hand is present, then prune expired points unconditionally. -/
def updateTrailStep (maxLen : ℕ) (retention : ℤ) (hand : Option (ℚ × ℚ))
    (now : ℤ) (trail : List TrailPoint) : List TrailPoint :=
  let t1 := match hand with
    | some p => appendCapped maxLen p now trail
    | none => trail
  keepFresh retention now t1

/-- HandTracking.updateTrails restricted to one hand: identical, except the
hand-absent branch prunes once more before the unconditional prune. -/
def updateTrailLegacy (maxLen : ℕ) (retention : ℤ) (hand : Option (ℚ × ℚ))
    (now : ℤ) (trail : List TrailPoint) : List TrailPoint :=
  let t1 := match hand with
    | some p => appendCapped maxLen p now trail
    | none => keepFresh retention now trail
  keepFresh retention now t1

/-- One hand's trail after a sequence of updateTrails calls, each supplying
the hand's detected position (or its absence) and the current time, starting
from the empty trail of the constructor. -/
def runTrail (maxLen : ℕ) (retention : ℤ)
    (us : List (Option (ℚ × ℚ) × ℤ)) : List TrailPoint :=
  us.foldl (fun tr u => updateTrailStep maxLen retention u.1 u.2 tr) []

theorem keepFresh_idem (retention now : ℤ) (trail : List TrailPoint) :
    keepFresh retention now (keepFresh retention now trail)
      = keepFresh retention now trail := by
  simp [keepFresh, List.filter_filter]

theorem length_appendCapped (maxLen : ℕ) (p : ℚ × ℚ) (now : ℤ)
    (trail : List TrailPoint) (h : trail.length ≤ maxLen) :
    (appendCapped maxLen p now trail).length ≤ maxLen := by
  unfold appendCapped
  by_cases hlen : maxLen < (trail ++ [TrailPoint.mk p.1 p.2 now]).length
  · simp only [if_pos hlen]
    simp at hlen ⊢
    omega
  · simp only [if_neg hlen]
    simp at hlen ⊢
    omega

theorem length_updateTrailStep (maxLen : ℕ) (retention : ℤ)
    (hand : Option (ℚ × ℚ)) (now : ℤ) (trail : List TrailPoint)
    (h : trail.length ≤ maxLen) :
    (updateTrailStep maxLen retention hand now trail).length ≤ maxLen := by
  unfold updateTrailStep keepFresh
  cases hand with
  | none => exact le_trans (List.length_filter_le _ _) h
  | some p =>
    exact le_trans (List.length_filter_le _ _)
      (length_appendCapped maxLen p now trail h)

theorem length_runTrail (maxLen : ℕ) (retention : ℤ)
    (us : List (Option (ℚ × ℚ) × ℤ)) :
    (runTrail maxLen retention us).length ≤ maxLen := by
  suffices h : ∀ (us : List (Option (ℚ × ℚ) × ℤ)) (tr : List TrailPoint),
      tr.length ≤ maxLen →
      (us.foldl (fun tr u => updateTrailStep maxLen retention u.1 u.2 tr)
        tr).length ≤ maxLen by
    exact h us [] (by simp)
  intro us
  induction us with
  | nil => intro tr h; simpa using h
  | cons u rest ih =>
    intro tr h
    exact ih _ (length_updateTrailStep maxLen retention u.1 u.2 tr h)

theorem mem_updateTrailStep_fresh (maxLen : ℕ) (retention : ℤ)
    (hand : Option (ℚ × ℚ)) (now : ℤ) (trail : List TrailPoint)
    (q : TrailPoint) (hq : q ∈ updateTrailStep maxLen retention hand now trail) :
    now - q.timestamp < retention := by
  unfold updateTrailStep keepFresh at hq
  rcases List.mem_filter.mp hq with ⟨-, hfresh⟩
  simpa using hfresh

end HandTrail

namespace HandTracking

/-- this.maxTrailLength of HandTracking (the Mediapipe-stream tracker). -/
def maxTrailLength : ℕ := 25

/-- this.trailRetentionTime of HandTracking, in milliseconds. -/
def trailRetentionTime : ℤ := 350

/-- HandTracking.updateTrails for one hand. -/
def updateTrailOneHand (hand : Option (ℚ × ℚ)) (now : ℤ)
    (trail : List HandTrail.TrailPoint) : List HandTrail.TrailPoint :=
  HandTrail.updateTrailLegacy maxTrailLength trailRetentionTime hand now trail

end HandTracking

/-- C7: the two trackers' per-hand trail updates agree (the older tracker's
extra prune in the hand-absent branch is absorbed by the unconditional
prune); under any update sequence from the empty trail the trail length
never exceeds maxTrailLength; every retained point is younger than the
retention window relative to the last update's timestamp; and on overflow
the dropped point is the oldest one (FIFO). -/
theorem C7_trail_bounded_fresh :
    (∀ (maxLen : ℕ) (retention : ℤ) (hand : Option (ℚ × ℚ)) (now : ℤ)
        (trail : List HandTrail.TrailPoint),
      HandTrail.updateTrailLegacy maxLen retention hand now trail
        = HandTrail.updateTrailStep maxLen retention hand now trail)
    ∧ (∀ (maxLen : ℕ) (retention : ℤ) (us : List (Option (ℚ × ℚ) × ℤ)),
        (HandTrail.runTrail maxLen retention us).length ≤ maxLen)
    ∧ (∀ (maxLen : ℕ) (retention : ℤ) (us : List (Option (ℚ × ℚ) × ℤ))
        (u : Option (ℚ × ℚ) × ℤ),
        ∀ q ∈ HandTrail.runTrail maxLen retention (us ++ [u]),
          u.2 - q.timestamp < retention)
    ∧ (∀ (maxLen : ℕ) (p : ℚ × ℚ) (now : ℤ)
        (trail : List HandTrail.TrailPoint),
        maxLen ≤ trail.length → trail ≠ [] →
          HandTrail.appendCapped maxLen p now trail
            = trail.drop 1 ++ [⟨p.1, p.2, now⟩]) := by
  refine ⟨?_, ?_, ?_, ?_⟩
  · intro maxLen retention hand now trail
    cases hand with
    | none =>
      simp [HandTrail.updateTrailLegacy, HandTrail.updateTrailStep,
        HandTrail.keepFresh_idem]
    | some p => rfl
  · exact HandTrail.length_runTrail
  · intro maxLen retention us u q hq
    rw [HandTrail.runTrail, List.foldl_append] at hq
    exact HandTrail.mem_updateTrailStep_fresh maxLen retention u.1 u.2 _ q
      (by simpa [List.foldl] using hq)
  · intro maxLen p now trail hlen hne
    unfold HandTrail.appendCapped
    have hcond : maxLen < (trail ++ [HandTrail.TrailPoint.mk p.1 p.2 now]).length := by
      simp
      omega
    rw [if_pos hcond]
    exact List.drop_append_of_le_length (by
      cases trail with
      | nil => exact absurd rfl hne
      | cons a t => simp)

/-- Witness for C7: a full trail of 25 points updated with a new point keeps
length 25 and drops the oldest; a stale point is pruned. -/
theorem C7_trail_bounded_fresh_witness :
    (HandTrail.runTrail 2 350
        [(some (1, 1), 100), (some (2, 2), 110), (some (3, 3), 120)]
      = [⟨2, 2, 110⟩, ⟨3, 3, 120⟩]
      ∧ HandTrail.appendCapped 2 (4, 4) 130 [⟨2, 2, 110⟩, ⟨3, 3, 120⟩]
          = [⟨3, 3, 120⟩, ⟨4, 4, 130⟩]
      ∧ HandTrail.runTrail 2 350 [(some (1, 1), 100), (none, 500)] = []) := by
  have h := C7_trail_bounded_fresh
  refine ⟨by decide, ?_, by decide⟩
  have := h.2.2.2 2 (4, 4) 130 [⟨2, 2, 110⟩, ⟨3, 3, 120⟩] (by decide)
    (by decide)
  rw [this]
  decide

namespace ModernHandTracker

/-- One normalized MediaPipe landmark (coordinates in 0..1). -/
structure Landmark where
  x : ℚ
  y : ℚ
  z : ℚ
  deriving Repr, DecidableEq

/-- One entry of results.handednesses as stored back by getHandedness. -/
structure Handedness where
  categoryName : String
  score : ℚ
  deriving Repr, DecidableEq

/-- One detected hand of the provider's results: its handedness entry (the
category name is taken already lowercased, as the code lowercases it before
use) and its landmark list.  Hands whose handedness array is empty are
skipped by processResults and are not represented. -/
structure RawHand where
  categoryName : String
  score : ℚ
  landmarks : List Landmark
  deriving Repr, DecidableEq

/-- landmarks[i].  The provider contract supplies 21 landmarks per hand, so
the default is never exercised for conforming input. -/
def lm (l : List Landmark) (i : ℕ) : Landmark := l.getD i ⟨0, 0, 0⟩

/-- One tracked hand (this.hands.left / this.hands.right). -/
structure HandData where
  landmarks : List Landmark
  position : ℚ × ℚ × ℚ
  wrist : ℚ × ℚ
  confidence : ℚ
  deriving Repr, DecidableEq

/-- this.historyLength: frames kept for position smoothing. -/
def historyLength : ℕ := 3

/-- this.maxTrailLength of ModernHandTracker. -/
def maxTrailLength : ℕ := 20

/-- this.trailRetentionTime of ModernHandTracker, in milliseconds. -/
def trailRetentionTime : ℤ := 250

/-- smoothHandPosition: push the current position into the per-hand history
(capped at historyLength, oldest dropped), then return the weighted average
with linearly increasing weights (i+1)/n normalized by the weight sum;
histories shorter than 2 return the current position unchanged. -/
def smoothHandPosition (history : List (ℚ × ℚ)) (current : ℚ × ℚ) :
    List (ℚ × ℚ) × (ℚ × ℚ) :=
  let h1 := history ++ [current]
  let h2 := if historyLength < h1.length then h1.drop 1 else h1
  if h2.length < 2 then (h2, current)
  else
    let n : ℚ := (h2.length : ℚ)
    let acc := h2.enum.foldl
      (fun a ip =>
        let w : ℚ := ((ip.1 + 1 : ℕ) : ℚ) / n
        (a.1 + ip.2.1 * w, a.2.1 + ip.2.2 * w, a.2.2 + w))
      ((0 : ℚ), (0 : ℚ), (0 : ℚ))
    (h2, (acc.1 / acc.2.2, acc.2.1 / acc.2.2))

/-- State of ModernHandTracker (the fields detectHands, processResults,
smoothHandPosition and updateTrails touch). -/
structure TrackerState where
  isInitialized : Bool
  hasLandmarker : Bool
  detectionIntervalMs : ℤ
  lastDetectionTime : ℤ
  handHistoryLeft : List (ℚ × ℚ)
  handHistoryRight : List (ℚ × ℚ)
  handsLeft : Option HandData
  handsRight : Option HandData
  trailLeft : List HandTrail.TrailPoint
  trailRight : List HandTrail.TrailPoint
  deriving Repr, DecidableEq

/-- Fresh ModernHandTracker right after construction. -/
def initTracker : TrackerState :=
  { isInitialized := false, hasLandmarker := false,
    detectionIntervalMs := 33, lastDetectionTime := 0,
    handHistoryLeft := [], handHistoryRight := [],
    handsLeft := none, handsRight := none,
    trailLeft := [], trailRight := [] }

/-- updateTrails: per hand, push the current position when the hand is
present (dropping the oldest on overflow), then prune expired points. -/
def updateTrails (now : ℤ) (s : TrackerState) : TrackerState :=
  { s with
    trailLeft := HandTrail.updateTrailStep maxTrailLength trailRetentionTime
      (s.handsLeft.map fun h => (h.position.1, h.position.2.1)) now s.trailLeft,
    trailRight := HandTrail.updateTrailStep maxTrailLength trailRetentionTime
      (s.handsRight.map fun h => (h.position.1, h.position.2.1)) now
      s.trailRight }

/-- The loop body of processResults for one detected hand: average the
index, middle and ring fingertip landmarks, scale by the canvas CSS client
dimensions, smooth against the per-hand history and store the hand data
under its handedness label. -/
def processOne (canvasW canvasH : ℚ) (st : TrackerState) (rh : RawHand) :
    TrackerState :=
  let indexFinger := lm rh.landmarks 8
  let middleFinger := lm rh.landmarks 12
  let ringFinger := lm rh.landmarks 16
  let wrist := lm rh.landmarks 0
  let cuttingX := (indexFinger.x + middleFinger.x + ringFinger.x) / 3
  let cuttingY := (indexFinger.y + middleFinger.y + ringFinger.y) / 3
  let cuttingZ := (indexFinger.z + middleFinger.z + ringFinger.z) / 3
  let screenX := cuttingX * canvasW
  let screenY := cuttingY * canvasH
  if rh.categoryName = "left" then
    let r := smoothHandPosition st.handHistoryLeft (screenX, screenY)
    { st with
      handHistoryLeft := r.1,
      handsLeft := some
        { landmarks := rh.landmarks,
          position := (r.2.1, r.2.2, cuttingZ),
          wrist := (wrist.x * canvasW, wrist.y * canvasH),
          confidence := rh.score } }
  else if rh.categoryName = "right" then
    let r := smoothHandPosition st.handHistoryRight (screenX, screenY)
    { st with
      handHistoryRight := r.1,
      handsRight := some
        { landmarks := rh.landmarks,
          position := (r.2.1, r.2.2, cuttingZ),
          wrist := (wrist.x * canvasW, wrist.y * canvasH),
          confidence := rh.score } }
  else st

/-- processResults: reset both hands, store each detected hand, update the
trails (also when no hand was detected). -/
def processResults (canvasW canvasH : ℚ) (now : ℤ) (results : List RawHand)
    (s : TrackerState) : TrackerState :=
  let s0 := { s with handsLeft := none, handsRight := none }
  if results.isEmpty then updateTrails now s0
  else updateTrails now (results.foldl (processOne canvasW canvasH) s0)

/-- getHandLandmarks: landmark lists of the present hands, left first. -/
def getHandLandmarks (s : TrackerState) : List (List Landmark) :=
  (match s.handsLeft with | some h => [h.landmarks] | none => [])
    ++ (match s.handsRight with | some h => [h.landmarks] | none => [])

/-- getHandedness: handedness entries of the present hands, left first. -/
def getHandedness (s : TrackerState) : List (List Handedness) :=
  (match s.handsLeft with
    | some h => [[⟨"Left", h.confidence⟩]] | none => [])
    ++ (match s.handsRight with
    | some h => [[⟨"Right", h.confidence⟩]] | none => [])

/-- getLastResults: the cached detection result rebuilt from the stored
hands. -/
def getLastResults (s : TrackerState) :
    List (List Landmark) × List (List Handedness) :=
  (getHandLandmarks s, getHandedness s)

/-- Outcome of one this.handLandmarker.detectForVideo call: the detected
hands, or the exception the catch block absorbs. -/
inductive ProviderResult where
  | ok (hands : List RawHand)
  | err
  deriving Repr, DecidableEq

/-- detectHands(currentTime): null unless initialized with a landmarker;
cached result when called again before detectionIntervalMs elapsed;
otherwise stamp lastDetectionTime, null when the video element is missing
or has zero width, and on a successful provider call process the results
and return the refreshed cache; a provider exception is caught and null is
returned.  videoReady and the provider outcome are the external inputs of
the call. -/
def detectHands (videoReady : Bool) (canvasW canvasH : ℚ)
    (provider : ProviderResult) (currentTime : ℤ) (s : TrackerState) :
    TrackerState × Option (List (List Landmark) × List (List Handedness)) :=
  if ¬(s.isInitialized = true ∧ s.hasLandmarker = true) then (s, none)
  else if currentTime - s.lastDetectionTime < s.detectionIntervalMs then
    (s, some (getLastResults s))
  else
    let s1 := { s with lastDetectionTime := currentTime }
    if videoReady = false then (s1, none)
    else
      match provider with
      | .ok hands =>
        let s2 := processResults canvasW canvasH currentTime hands s1
        (s2, some (getLastResults s2))
      | .err => (s1, none)

end ModernHandTracker

/-- A tracker state holding a cached detection (one left hand). -/
def cachedTracker : ModernHandTracker.TrackerState :=
  { isInitialized := true, hasLandmarker := true,
    detectionIntervalMs := 33, lastDetectionTime := 0,
    handHistoryLeft := [(10, 10)], handHistoryRight := [],
    handsLeft := some
      { landmarks := [⟨0, 0, 0⟩], position := (10, 10, 0),
        wrist := (5, 5), confidence := 1 },
    handsRight := none, trailLeft := [], trailRight := [] }

/-- C9 counterexample: with a non-empty cached result and the throttle
interval elapsed, a provider exception makes detectHands return null
(none), not the previous cached result, refuting the claim as stated. -/
theorem C9_err_returns_null_not_cache :
    ¬ ((ModernHandTracker.detectHands true 640 480 .err 100 cachedTracker).2
        = some (ModernHandTracker.getLastResults cachedTracker)) := by
  decide

/-- C9 amended: a provider exception is caught, not propagated: the call
returns null (which the game treats as no hands this tick) with the cached
hands, histories and trails unchanged — only the throttle timestamp is
stamped; and a call arriving before detectionIntervalMs has elapsed returns
the cached result without invoking the provider (the result is the same for
every provider outcome). -/
theorem C9_throttle_and_error_handling :
    (∀ (videoReady : Bool) (canvasW canvasH : ℚ) (t : ℤ)
        (s : ModernHandTracker.TrackerState),
      s.isInitialized = true → s.hasLandmarker = true →
      ¬(t - s.lastDetectionTime < s.detectionIntervalMs) →
        ModernHandTracker.detectHands videoReady canvasW canvasH .err t s
          = ({ s with lastDetectionTime := t }, none))
    ∧ (∀ (videoReady : Bool) (canvasW canvasH : ℚ)
        (p q : ModernHandTracker.ProviderResult) (t : ℤ)
        (s : ModernHandTracker.TrackerState),
      s.isInitialized = true → s.hasLandmarker = true →
      t - s.lastDetectionTime < s.detectionIntervalMs →
        (ModernHandTracker.detectHands videoReady canvasW canvasH p t s
            = (s, some (ModernHandTracker.getLastResults s))
          ∧ ModernHandTracker.detectHands videoReady canvasW canvasH p t s
            = ModernHandTracker.detectHands videoReady canvasW canvasH q t s)) := by
  constructor
  · intro videoReady canvasW canvasH t s hinit hlmk hthr
    cases videoReady <;>
      simp [ModernHandTracker.detectHands, hinit, hlmk, hthr]
  · intro videoReady canvasW canvasH p q t s hinit hlmk hthr
    constructor <;>
      simp [ModernHandTracker.detectHands, hinit, hlmk, hthr]

/-- Witness for C9's amended theorem at the cached tracker state. -/
theorem C9_throttle_and_error_handling_witness :
    (ModernHandTracker.detectHands true 640 480 .err 100 cachedTracker
        = ({ cachedTracker with lastDetectionTime := 100 }, none)
      ∧ ModernHandTracker.detectHands true 640 480 (.ok []) 10 cachedTracker
        = (cachedTracker,
            some (ModernHandTracker.getLastResults cachedTracker))) := by
  have h := C9_throttle_and_error_handling
  exact ⟨h.1 true 640 480 100 cachedTracker (by decide) (by decide) (by decide),
    (h.2 true 640 480 (.ok []) .err 10 cachedTracker (by decide) (by decide)
      (by decide)).1⟩

namespace GameScene

/-- A 2D screen point in pixels. -/
abbrev Pt := ℚ × ℚ

/-- A 3D vector (THREE.Vector3 fields used by the simulation). -/
structure Vec3 where
  x : ℚ
  y : ℚ
  z : ℚ
  deriving Repr, DecidableEq

/-- A spawned fruit mesh: its pose and the userData fields the simulation
reads (type, radius and the material are presentation-only and omitted). -/
structure Fruit where
  position : Vec3
  velocity : Vec3
  angularVelocity : Vec3
  rotation : Vec3
  isCut : Bool
  fruitType : String
  gravity : ℚ
  deriving Repr, DecidableEq

/-- A spawned bomb mesh (same simulation fields, no fruit type). -/
structure Bomb where
  position : Vec3
  velocity : Vec3
  angularVelocity : Vec3
  rotation : Vec3
  isCut : Bool
  gravity : ℚ
  deriving Repr, DecidableEq

/-- Externally visible callbacks of the scene during one tick
(this.onFruitCut(fruitType) and this.onBombCut()). -/
inductive SceneEvent where
  | fruitCut (fruitType : String)
  | bombCut
  deriving Repr, DecidableEq

/-- GameScene state: the fields animate() and its helpers read or write.
The renderer, particles and meshes' visual attributes are presentation and
the claims do not touch them. -/
structure SceneState where
  fruits : List Fruit
  bombs : List Bomb
  gameTime : ℚ
  isPaused : Bool
  lastSpawnTime : ℚ
  spawnInterval : ℚ
  difficulty : ℚ
  fruitSpeed : ℚ
  cuttingPaths : List (List Pt)
  deriving Repr, DecidableEq

/-- The scene right after reset(): counters zeroed, paused, spawn interval
2.5. -/
def resetState : SceneState :=
  { fruits := [], bombs := [], gameTime := 0, isPaused := true,
    lastSpawnTime := 0, spawnInterval := 5 / 2, difficulty := 1,
    fruitSpeed := 5, cuttingPaths := [] }

/-- updateDifficulty: the spawn interval is a step function of gameTime
(2.5s before 20s, 1.5s before 40s, 1.0s after), and difficulty/fruitSpeed
grow linearly with gameTime. -/
def updateDifficulty (s : SceneState) : SceneState :=
  { s with
    spawnInterval :=
      if s.gameTime < 20 then 5 / 2 else if s.gameTime < 40 then 3 / 2 else 1,
    difficulty := 1 + s.gameTime * (5 / 100),
    fruitSpeed := 5 + s.gameTime * (5 / 100) }

/-- The step function of updateDifficulty, by itself. -/
def spawnIntervalOf (t : ℚ) : ℚ :=
  if t < 20 then 5 / 2 else if t < 40 then 3 / 2 else 1

/-- The Math.random() draws consumed by one spawn: the fruit/bomb roll and
the randomized pose of the new object (pattern choice, jitter, speeds);
the mesh geometry itself is presentation. -/
structure SpawnOracle where
  kindRoll : ℚ
  fruitType : String
  position : Vec3
  velocity : Vec3
  angularVelocity : Vec3
  deriving Repr, DecidableEq

/-- spawnFruit: push one fresh fruit (isCut false, gravity 4.0) built from
the random draws. -/
def spawnFruit (o : SpawnOracle) (s : SceneState) : SceneState :=
  { s with fruits := s.fruits ++
      [{ position := o.position, velocity := o.velocity,
         angularVelocity := o.angularVelocity, rotation := ⟨0, 0, 0⟩,
         isCut := false, fruitType := o.fruitType, gravity := 4 }] }

/-- spawnBomb: push one fresh bomb (isCut false, gravity 4.0). -/
def spawnBomb (o : SpawnOracle) (s : SceneState) : SceneState :=
  { s with bombs := s.bombs ++
      [{ position := o.position, velocity := o.velocity,
         angularVelocity := o.angularVelocity, rotation := ⟨0, 0, 0⟩,
         isCut := false, gravity := 4 }] }

/-- spawnObjects(deltaTime): nothing while paused; default the interval if
it is still falsy; spawn one object (80% fruit) and rebase lastSpawnTime
when gameTime - lastSpawnTime reached the interval.  deltaTime is unused by
the source body as well. -/
def spawnObjects (dt : ℚ) (o : SpawnOracle) (s : SceneState) : SceneState :=
  if s.isPaused then s
  else
    let s := if s.spawnInterval = 0 then { s with spawnInterval := 5 / 2 } else s
    if s.spawnInterval ≤ s.gameTime - s.lastSpawnTime then
      let s1 := { s with lastSpawnTime := s.gameTime }
      if o.kindRoll < 4 / 5 then spawnFruit o s1 else spawnBomb o s1
    else s

/-- updateFruits' body for one fruit: skip cut fruit; apply gravity to the
velocity (the JS truthiness guard on gravity is gravity different from 0),
advance the position by the new velocity, spin by the angular velocity. -/
def updateFruit (dt : ℚ) (f : Fruit) : Fruit :=
  if f.isCut then f
  else
    let v := if f.gravity ≠ 0
      then { f.velocity with y := f.velocity.y - f.gravity * dt }
      else f.velocity
    { f with
      velocity := v,
      position := ⟨f.position.x + v.x * dt, f.position.y + v.y * dt,
        f.position.z + v.z * dt⟩,
      rotation := ⟨f.rotation.x + f.angularVelocity.x * dt,
        f.rotation.y + f.angularVelocity.y * dt,
        f.rotation.z + f.angularVelocity.z * dt⟩ }

/-- updateBombs' body for one bomb (the emissive blink is presentation). -/
def updateBomb (dt : ℚ) (b : Bomb) : Bomb :=
  if b.isCut then b
  else
    let v := if b.gravity ≠ 0
      then { b.velocity with y := b.velocity.y - b.gravity * dt }
      else b.velocity
    { b with
      velocity := v,
      position := ⟨b.position.x + v.x * dt, b.position.y + v.y * dt,
        b.position.z + v.z * dt⟩,
      rotation := ⟨b.rotation.x + b.angularVelocity.x * dt,
        b.rotation.y + b.angularVelocity.y * dt,
        b.rotation.z + b.angularVelocity.z * dt⟩ }

/-- pointToLineDistance without the final Math.sqrt: the closest point on
the segment, with the projection parameter clamped to [0, 1] exactly as in
the source (param stays -1 when the segment is degenerate). -/
def closestPointOnSegment (point lineStart lineEnd : Pt) : Pt :=
  let a := point.1 - lineStart.1
  let b := point.2 - lineStart.2
  let c := lineEnd.1 - lineStart.1
  let d := lineEnd.2 - lineStart.2
  let dot := a * c + b * d
  let lenSq := c * c + d * d
  let param : ℚ := if lenSq ≠ 0 then dot / lenSq else -1
  if param < 0 then lineStart
  else if 1 < param then lineEnd
  else (lineStart.1 + param * c, lineStart.2 + param * d)

/-- The square of pointToLineDistance.  Math.sqrt has no rational
counterpart; every use in the source compares the distance against the
threshold 20, which is equivalent to comparing this square against
20 * 20 = 400 since both are nonnegative. -/
def pointToLineDistanceSq (point lineStart lineEnd : Pt) : ℚ :=
  let cp := closestPointOnSegment point lineStart lineEnd
  (point.1 - cp.1) ^ 2 + (point.2 - cp.2) ^ 2

/-- The pixel threshold of isPointOnPath (distance < 20). -/
def hitThreshold : ℚ := 20

/-- The segments isPointOnPath tests for one path: consecutive pairs among
only the last recentPointsCount = min(5, length) points. -/
def recentSegments (points : List Pt) : List (Pt × Pt) :=
  let recent := points.drop (points.length - min 5 points.length)
  recent.zip recent.tail

/-- isPointOnPath: some tested segment of some path passes within the
threshold of the point (distance < 20, squared here). -/
def isPointOnPath (point : Pt) (paths : List (List Pt)) : Bool :=
  paths.any fun path =>
    (recentSegments path).any fun seg =>
      pointToLineDistanceSq point seg.1 seg.2 < hitThreshold ^ 2

/-- GameScene.cutFruit on the object itself: no-op when already cut, else
latch isCut and fire onFruitCut with the fruit type (the particle explosion
is presentation; the removal from the live list happens at the call site
in the collision loop). -/
def cutFruitObj (f : Fruit) : Fruit × List SceneEvent :=
  if f.isCut then (f, [])
  else ({ f with isCut := true }, [.fruitCut f.fruitType])

/-- GameScene.cutBomb on the object itself. -/
def cutBombObj (b : Bomb) : Bomb × List SceneEvent :=
  if b.isCut then (b, [])
  else ({ b with isCut := true }, [.bombCut])

/-- The fruit half of checkCuttingCollisions: JavaScript forEach over the
live array while cutFruit splices cut elements out of it.  The index
advances each iteration; a removed element shifts the array left, exactly
as Array.prototype.forEach interacts with splice. -/
def collideFruits (proj : Vec3 → Pt) (paths : List (List Pt)) :
    ℕ → List Fruit → List Fruit × List SceneEvent
  | i, fruits =>
    if h : i < fruits.length then
      let f := fruits.get ⟨i, h⟩
      if f.isCut then collideFruits proj paths (i + 1) fruits
      else if isPointOnPath (proj f.position) paths then
        let r := cutFruitObj f
        let rest := collideFruits proj paths (i + 1) (fruits.eraseIdx i)
        (rest.1, r.2 ++ rest.2)
      else collideFruits proj paths (i + 1) fruits
    else (fruits, [])
  termination_by i fruits => fruits.length + 1 - i
  decreasing_by
    all_goals simp_wf
    all_goals first
      | omega
      | (have hlen := List.length_eraseIdx_add_one h; omega)

/-- The bomb half of checkCuttingCollisions. -/
def collideBombs (proj : Vec3 → Pt) (paths : List (List Pt)) :
    ℕ → List Bomb → List Bomb × List SceneEvent
  | i, bombs =>
    if h : i < bombs.length then
      let b := bombs.get ⟨i, h⟩
      if b.isCut then collideBombs proj paths (i + 1) bombs
      else if isPointOnPath (proj b.position) paths then
        let r := cutBombObj b
        let rest := collideBombs proj paths (i + 1) (bombs.eraseIdx i)
        (rest.1, r.2 ++ rest.2)
      else collideBombs proj paths (i + 1) bombs
    else (bombs, [])
  termination_by i bombs => bombs.length + 1 - i
  decreasing_by
    all_goals simp_wf
    all_goals first
      | omega
      | (have hlen := List.length_eraseIdx_add_one h; omega)

/-- checkCuttingCollisions: nothing without cutting paths; otherwise test
every live object's projected screen position (worldToScreen, i.e. the
external camera projection proj) against the paths and cut the hits. -/
def checkCuttingCollisions (proj : Vec3 → Pt) (s : SceneState) :
    SceneState × List SceneEvent :=
  if s.cuttingPaths.isEmpty then (s, [])
  else
    let rf := collideFruits proj s.cuttingPaths 0 s.fruits
    let rb := collideBombs proj s.cuttingPaths 0 s.bombs
    ({ s with fruits := rf.1, bombs := rb.1 }, rf.2 ++ rb.2)

/-- cleanupObjects: silently drop objects fallen below y = -10. -/
def cleanupObjects (s : SceneState) : SceneState :=
  { s with
    fruits := s.fruits.filter fun f => ¬(f.position.y < -10),
    bombs := s.bombs.filter fun b => ¬(b.position.y < -10) }

/-- The phases of animate() before collision testing, in source order:
gameTime accumulation, updateDifficulty, spawnObjects, updateFruits,
updateBombs (updateParticles is presentation). -/
def preCollision (dt : ℚ) (o : SpawnOracle) (s : SceneState) : SceneState :=
  let s1 := { s with gameTime := s.gameTime + dt }
  let s2 := updateDifficulty s1
  let s3 := spawnObjects dt o s2
  { s3 with
    fruits := s3.fruits.map (updateFruit dt),
    bombs := s3.bombs.map (updateBomb dt) }

/-- One animate() frame: the pre-collision phases, then
checkCuttingCollisions, then cleanupObjects (rendering is presentation).
The frame callback itself has no pause guard; dt is the external clock's
delta for this frame. -/
def animate (proj : Vec3 → Pt) (dt : ℚ) (o : SpawnOracle) (s : SceneState) :
    SceneState × List SceneEvent :=
  let s4 := preCollision dt o s
  let r := checkCuttingCollisions proj s4
  (cleanupObjects r.1, r.2)

/-- setPaused: stop or start the external clock and, on resume, rebase
lastSpawnTime so no spawn backlog fires. -/
def setPaused (paused : Bool) (s : SceneState) : SceneState :=
  if paused then { s with isPaused := true }
  else { s with isPaused := false, lastSpawnTime := s.gameTime }

end GameScene

namespace GameScene

/-- cut resolution applied n times to the same object (repeated collision
matches across paths or frames). -/
def cutFruitN : ℕ → Fruit → Fruit × List SceneEvent
  | 0, f => (f, [])
  | n + 1, f =>
    let r := cutFruitObj f
    let rest := cutFruitN n r.1
    (rest.1, r.2 ++ rest.2)

/-- cut resolution applied n times to the same bomb. -/
def cutBombN : ℕ → Bomb → Bomb × List SceneEvent
  | 0, b => (b, [])
  | n + 1, b =>
    let r := cutBombObj b
    let rest := cutBombN n r.1
    (rest.1, r.2 ++ rest.2)

theorem cutFruitObj_fst_isCut (f : Fruit) : (cutFruitObj f).1.isCut = true := by
  by_cases h : f.isCut = true <;> simp [cutFruitObj, h]

theorem cutBombObj_fst_isCut (b : Bomb) : (cutBombObj b).1.isCut = true := by
  by_cases h : b.isCut = true <;> simp [cutBombObj, h]

theorem cutFruitN_events (n : ℕ) (f : Fruit) :
    (cutFruitN n f).2.length = if f.isCut = true ∨ n = 0 then 0 else 1 := by
  induction n generalizing f with
  | zero => simp [cutFruitN]
  | succ n ih =>
    by_cases h : f.isCut = true
    · have hrec := ih f
      simp [cutFruitN, cutFruitObj, h, hrec]
    · have hrec := ih (cutFruitObj f).1
      rw [cutFruitObj_fst_isCut] at hrec
      simp [cutFruitObj, h] at hrec
      simp [cutFruitN, cutFruitObj, h, hrec]

theorem cutBombN_events (n : ℕ) (b : Bomb) :
    (cutBombN n b).2.length = if b.isCut = true ∨ n = 0 then 0 else 1 := by
  induction n generalizing b with
  | zero => simp [cutBombN]
  | succ n ih =>
    by_cases h : b.isCut = true
    · have hrec := ih b
      simp [cutBombN, cutBombObj, h, hrec]
    · have hrec := ih (cutBombObj b).1
      rw [cutBombObj_fst_isCut] at hrec
      simp [cutBombObj, h] at hrec
      simp [cutBombN, cutBombObj, h, hrec]

end GameScene

/-- C4: cut resolution is idempotent per object: on an object whose isCut
flag is already set, cutFruit/cutBomb is a no-op (object unchanged, no
callback); and over any number n of cut-resolution calls on the same
object, the onFruitCut/onBombCut callback fires at most once — exactly once
when the object started uncut and n >= 1, zero times otherwise. -/
theorem C4_cut_idempotent :
    (∀ f : GameScene.Fruit, f.isCut = true → GameScene.cutFruitObj f = (f, []))
    ∧ (∀ b : GameScene.Bomb, b.isCut = true → GameScene.cutBombObj b = (b, []))
    ∧ (∀ (n : ℕ) (f : GameScene.Fruit),
        (GameScene.cutFruitN n f).2.length
          = if f.isCut = true ∨ n = 0 then 0 else 1)
    ∧ (∀ (n : ℕ) (b : GameScene.Bomb),
        (GameScene.cutBombN n b).2.length
          = if b.isCut = true ∨ n = 0 then 0 else 1) := by
  refine ⟨?_, ?_, GameScene.cutFruitN_events, GameScene.cutBombN_events⟩
  · intro f h
    simp [GameScene.cutFruitObj, h]
  · intro b h
    simp [GameScene.cutBombObj, h]

/-- A fresh apple fruit used by witnesses. -/
def appleObj : GameScene.Fruit :=
  { position := ⟨0, 0, 0⟩, velocity := ⟨0, 0, 0⟩,
    angularVelocity := ⟨0, 0, 0⟩, rotation := ⟨0, 0, 0⟩,
    isCut := false, fruitType := "apple", gravity := 4 }

/-- An already-cut bomb used by witnesses. -/
def cutBombSample : GameScene.Bomb :=
  { position := ⟨0, 0, 0⟩, velocity := ⟨0, 0, 0⟩,
    angularVelocity := ⟨0, 0, 0⟩, rotation := ⟨0, 0, 0⟩,
    isCut := true, gravity := 4 }

/-- Witness for C4: cutting an apple twice fires one callback; an
already-cut bomb is untouched. -/
theorem C4_cut_idempotent_witness :
    (GameScene.cutFruitN 2 appleObj).2.length = 1
    ∧ GameScene.cutBombObj cutBombSample = (cutBombSample, []) := by
  have h := C4_cut_idempotent
  constructor
  · rw [h.2.2.1 2 appleObj]
    decide
  · exact h.2.1 cutBombSample rfl

namespace GameScene

theorem clampedParamForm (q r : Pt) (param : ℚ) :
    ∃ t : ℚ, 0 ≤ t ∧ t ≤ 1 ∧
      (if param < 0 then q else if 1 < param then r
        else (q.1 + param * (r.1 - q.1), q.2 + param * (r.2 - q.2)))
        = (q.1 + t * (r.1 - q.1), q.2 + t * (r.2 - q.2)) := by
  by_cases h0 : param < 0
  · refine ⟨0, le_refl 0, by norm_num, ?_⟩
    simp [if_pos h0, Prod.ext_iff]
  · by_cases h1 : 1 < param
    · refine ⟨1, by norm_num, le_refl 1, ?_⟩
      simp [if_neg h0, if_pos h1, Prod.ext_iff]
    · exact ⟨param, not_lt.mp h0, not_lt.mp h1, by simp [if_neg h0, if_neg h1]⟩

theorem closestPointOnSegment_eq_clamped (p q r : Pt) :
    closestPointOnSegment p q r
      = (if (if (r.1 - q.1) * (r.1 - q.1) + (r.2 - q.2) * (r.2 - q.2) ≠ 0
              then ((p.1 - q.1) * (r.1 - q.1) + (p.2 - q.2) * (r.2 - q.2))
                / ((r.1 - q.1) * (r.1 - q.1) + (r.2 - q.2) * (r.2 - q.2))
              else -1) < 0
          then q
          else if 1 < (if (r.1 - q.1) * (r.1 - q.1) + (r.2 - q.2) * (r.2 - q.2) ≠ 0
              then ((p.1 - q.1) * (r.1 - q.1) + (p.2 - q.2) * (r.2 - q.2))
                / ((r.1 - q.1) * (r.1 - q.1) + (r.2 - q.2) * (r.2 - q.2))
              else -1)
          then r
          else (q.1 + (if (r.1 - q.1) * (r.1 - q.1) + (r.2 - q.2) * (r.2 - q.2) ≠ 0
              then ((p.1 - q.1) * (r.1 - q.1) + (p.2 - q.2) * (r.2 - q.2))
                / ((r.1 - q.1) * (r.1 - q.1) + (r.2 - q.2) * (r.2 - q.2))
              else -1) * (r.1 - q.1),
            q.2 + (if (r.1 - q.1) * (r.1 - q.1) + (r.2 - q.2) * (r.2 - q.2) ≠ 0
              then ((p.1 - q.1) * (r.1 - q.1) + (p.2 - q.2) * (r.2 - q.2))
                / ((r.1 - q.1) * (r.1 - q.1) + (r.2 - q.2) * (r.2 - q.2))
              else -1) * (r.2 - q.2))) := rfl

theorem collideFruits_single (proj : Vec3 → Pt) (paths : List (List Pt))
    (f : Fruit) :
    collideFruits proj paths 0 [f]
      = if f.isCut = false ∧ isPointOnPath (proj f.position) paths = true
        then ([], [.fruitCut f.fruitType]) else ([f], []) := by
  by_cases hc : f.isCut = true
  · simp [collideFruits, hc]
  · have hc' : f.isCut = false := by simpa using hc
    by_cases hp : isPointOnPath (proj f.position) paths = true
    · simp [collideFruits, hc', hp, cutFruitObj]
    · simp [collideFruits, hc', hp]

theorem collideBombs_single (proj : Vec3 → Pt) (paths : List (List Pt))
    (b : Bomb) :
    collideBombs proj paths 0 [b]
      = if b.isCut = false ∧ isPointOnPath (proj b.position) paths = true
        then ([], [.bombCut]) else ([b], []) := by
  by_cases hc : b.isCut = true
  · simp [collideBombs, hc]
  · have hc' : b.isCut = false := by simpa using hc
    by_cases hp : isPointOnPath (proj b.position) paths = true
    · simp [collideBombs, hc', hp, cutBombObj]
    · simp [collideBombs, hc', hp]

end GameScene

/-- C6: the collision test cuts a live object exactly when some consecutive
segment among only the last min(5, length) points of some cutting path
passes within the 20-pixel threshold of the object's projected screen
position (distances compared squared, 400 = 20 * 20); the closest point the
distance is measured to always lies on the segment itself — it is
lineStart + t * (lineEnd - lineStart) for a clamped t in [0, 1] — never on
its infinite extension; and an uncut object none of whose tested segments
passes within the threshold is not cut. -/
theorem C6_collision_test :
    (∀ (point : GameScene.Pt) (paths : List (List GameScene.Pt)),
      GameScene.isPointOnPath point paths = true
        ↔ ∃ path ∈ paths, ∃ seg ∈ GameScene.recentSegments path,
            GameScene.pointToLineDistanceSq point seg.1 seg.2
              < GameScene.hitThreshold ^ 2)
    ∧ (∀ p q r : GameScene.Pt, ∃ t : ℚ, 0 ≤ t ∧ t ≤ 1 ∧
        GameScene.closestPointOnSegment p q r
          = (q.1 + t * (r.1 - q.1), q.2 + t * (r.2 - q.2)))
    ∧ (∀ (proj : GameScene.Vec3 → GameScene.Pt)
        (paths : List (List GameScene.Pt)) (f : GameScene.Fruit),
        GameScene.collideFruits proj paths 0 [f]
          = if f.isCut = false
              ∧ GameScene.isPointOnPath (proj f.position) paths = true
            then ([], [.fruitCut f.fruitType]) else ([f], []))
    ∧ (∀ (proj : GameScene.Vec3 → GameScene.Pt)
        (paths : List (List GameScene.Pt)) (b : GameScene.Bomb),
        GameScene.collideBombs proj paths 0 [b]
          = if b.isCut = false
              ∧ GameScene.isPointOnPath (proj b.position) paths = true
            then ([], [.bombCut]) else ([b], [])) := by
  refine ⟨?_, ?_, GameScene.collideFruits_single, GameScene.collideBombs_single⟩
  · intro point paths
    simp [GameScene.isPointOnPath, List.any_eq_true]
  · intro p q r
    rw [GameScene.closestPointOnSegment_eq_clamped p q r]
    exact GameScene.clampedParamForm q r _

namespace GameScene

theorem updateFruit_zero (f : Fruit) : updateFruit 0 f = f := by
  obtain ⟨⟨px, py, pz⟩, ⟨vx, vy, vz⟩, ⟨ax, ay, az⟩, ⟨rx, ry, rz⟩, c, ty, g⟩ := f
  cases c <;> simp [updateFruit]

theorem updateBomb_zero (b : Bomb) : updateBomb 0 b = b := by
  obtain ⟨⟨px, py, pz⟩, ⟨vx, vy, vz⟩, ⟨ax, ay, az⟩, ⟨rx, ry, rz⟩, c, g⟩ := b
  cases c <;> simp [updateBomb]

theorem spawnObjects_paused (dt : ℚ) (o : SpawnOracle) (s : SceneState)
    (h : s.isPaused = true) : spawnObjects dt o s = s := by
  simp [spawnObjects, h]

theorem preCollision_paused_zero (o : SpawnOracle) (s : SceneState)
    (h : s.isPaused = true) : preCollision 0 o s = updateDifficulty s := by
  have h1 : ({ s with gameTime := s.gameTime + 0 } : SceneState) = s := by
    rw [add_zero]
  have h2 : (updateDifficulty s).isPaused = true := by
    simpa [updateDifficulty] using h
  have hf : updateFruit 0 = id := funext updateFruit_zero
  have hb : updateBomb 0 = id := funext updateBomb_zero
  rw [preCollision, h1, spawnObjects_paused 0 o _ h2, hf, hb]
  simp

end GameScene

/-- The fruit of the C8 scenario: uncut apple at the origin. -/
def c8Fruit : GameScene.Fruit :=
  { position := ⟨0, 0, 0⟩, velocity := ⟨0, 0, 0⟩,
    angularVelocity := ⟨0, 0, 0⟩, rotation := ⟨0, 0, 0⟩,
    isCut := false, fruitType := "apple", gravity := 4 }

/-- A paused scene holding that fruit and a cutting path crossing its
projected position. -/
def c8State : GameScene.SceneState :=
  { fruits := [c8Fruit], bombs := [], gameTime := 0, isPaused := true,
    lastSpawnTime := 0, spawnInterval := 5 / 2, difficulty := 1,
    fruitSpeed := 5, cuttingPaths := [[(0, -5), (0, 5)]] }

/-- A trivial camera projection (the camera is external to the scene
simulation). -/
def projXY : GameScene.Vec3 → GameScene.Pt := fun v => (v.x, v.y)

/-- Random draws for one spawn (unused while paused). -/
def c8Oracle : GameScene.SpawnOracle :=
  { kindRoll := 0, fruitType := "apple", position := ⟨0, 0, 0⟩,
    velocity := ⟨0, 0, 0⟩, angularVelocity := ⟨0, 0, 0⟩ }

/-- C8 counterexample: a tick taken while the scene is paused (clock delta
0) still performs collision testing and fires onFruitCut, so the simulation
tick is not skipped while paused and a cut callback can fire during a
pause, refuting the claim as stated. -/
theorem C8_paused_tick_fires_cut :
    c8State.isPaused = true
    ∧ (GameScene.animate projXY 0 c8Oracle c8State).2
        = [GameScene.SceneEvent.fruitCut "apple"] := by
  refine ⟨rfl, ?_⟩
  have hdiff : GameScene.updateDifficulty c8State = c8State := by
    rw [GameScene.updateDifficulty]
    show ({ c8State with
      spawnInterval :=
        if c8State.gameTime < 20 then 5 / 2
        else if c8State.gameTime < 40 then 3 / 2 else 1,
      difficulty := 1 + c8State.gameTime * (5 / 100),
      fruitSpeed := 5 + c8State.gameTime * (5 / 100) } : GameScene.SceneState)
        = c8State
    norm_num [c8State]
  have hpre : GameScene.preCollision 0 c8Oracle c8State = c8State := by
    rw [GameScene.preCollision_paused_zero c8Oracle c8State rfl, hdiff]
  show (GameScene.checkCuttingCollisions projXY
    (GameScene.preCollision 0 c8Oracle c8State)).2 = _
  rw [hpre]
  have hf := GameScene.collideFruits_single projXY c8State.cuttingPaths c8Fruit
  have hcond : c8Fruit.isCut = false
      ∧ GameScene.isPointOnPath (projXY c8Fruit.position) c8State.cuttingPaths
        = true := by
    refine ⟨rfl, ?_⟩
    rw [GameScene.isPointOnPath]
    norm_num [c8State, c8Fruit, projXY, GameScene.recentSegments,
      GameScene.pointToLineDistanceSq, GameScene.closestPointOnSegment,
      GameScene.hitThreshold]
  rw [if_pos hcond] at hf
  have hne : c8State.cuttingPaths.isEmpty = false := rfl
  have hfr : c8State.fruits = [c8Fruit] := rfl
  have hbo : c8State.bombs = [] := rfl
  have hty : c8Fruit.fruitType = "apple" := rfl
  simp [GameScene.checkCuttingCollisions, hne, hfr, hbo, hty, hf,
    GameScene.collideBombs]

/-- C8 amended: while the scene is paused no object is spawned
(spawnObjects returns early), and a zero clock delta leaves every object's
position, velocity and rotation unchanged; but the animate tick itself is
not skipped: on a paused tick with the clock stopped the frame still
equals collision testing (plus cleanup) on the difficulty-refreshed state,
so cut callbacks can still fire during a pause. -/
theorem C8_pause_semantics :
    (∀ (dt : ℚ) (o : GameScene.SpawnOracle) (s : GameScene.SceneState),
        s.isPaused = true → GameScene.spawnObjects dt o s = s)
    ∧ (∀ f : GameScene.Fruit, GameScene.updateFruit 0 f = f)
    ∧ (∀ b : GameScene.Bomb, GameScene.updateBomb 0 b = b)
    ∧ (∀ (proj : GameScene.Vec3 → GameScene.Pt) (o : GameScene.SpawnOracle)
        (s : GameScene.SceneState), s.isPaused = true →
        GameScene.animate proj 0 o s
          = (GameScene.cleanupObjects
              (GameScene.checkCuttingCollisions proj
                (GameScene.updateDifficulty s)).1,
             (GameScene.checkCuttingCollisions proj
                (GameScene.updateDifficulty s)).2)) := by
  refine ⟨GameScene.spawnObjects_paused, GameScene.updateFruit_zero,
    GameScene.updateBomb_zero, ?_⟩
  intro proj o s h
  rw [GameScene.animate, GameScene.preCollision_paused_zero o s h]

/-- Witness for C8's amended theorem at the concrete paused scene. -/
theorem C8_pause_semantics_witness :
    GameScene.spawnObjects 1 c8Oracle c8State = c8State
    ∧ GameScene.animate projXY 0 c8Oracle c8State
      = (GameScene.cleanupObjects
          (GameScene.checkCuttingCollisions projXY
            (GameScene.updateDifficulty c8State)).1,
         (GameScene.checkCuttingCollisions projXY
            (GameScene.updateDifficulty c8State)).2) := by
  have h := C8_pause_semantics
  exact ⟨h.1 1 c8Oracle c8State rfl, h.2.2.2 projXY c8Oracle c8State rfl⟩

namespace GameScene

/-- External inputs driving the scene across a session: one animate frame
(with the external clock's delta and that frame's random draws), or a
setPaused call from the orchestrator. -/
inductive GEvent where
  | tick (dt : ℚ) (o : SpawnOracle)
  | pause (b : Bool)

/-- Apply one input to the scene. -/
def sceneStep (proj : Vec3 → Pt) (s : SceneState) : GEvent → SceneState
  | .tick dt o => (animate proj dt o s).1
  | .pause b => setPaused b s

/-- Run a sequence of inputs. -/
def runScene (proj : Vec3 → Pt) (s : SceneState) (es : List GEvent) :
    SceneState :=
  es.foldl (sceneStep proj) s

/-- gameTime observed after each input of a run. -/
def gameTimes (proj : Vec3 → Pt) : SceneState → List GEvent → List ℚ
  | _, [] => []
  | s, e :: es =>
    (sceneStep proj s e).gameTime :: gameTimes proj (sceneStep proj s e) es

/-- Total clock delta of the ticks taken while unpaused (the flag follows
the pause events). -/
def sumUnpaused : Bool → List GEvent → ℚ
  | _, [] => 0
  | paused, .tick dt _ :: es => (if paused then 0 else dt) + sumUnpaused paused es
  | _, .pause b :: es => sumUnpaused b es

/-- The clock is an external collaborator (THREE.Clock): setPaused stops it
while paused and restarts it on resume.  A run is clock-consistent when
every tick taken in a paused state carries a zero delta — the stopped
clock's delta. -/
def clockStopped (proj : Vec3 → Pt) : SceneState → List GEvent → Prop
  | _, [] => True
  | s, .tick dt o :: es =>
    (s.isPaused = true → dt = 0)
      ∧ clockStopped proj (sceneStep proj s (.tick dt o)) es
  | s, .pause b :: es => clockStopped proj (setPaused b s) es

/-- Nonnegative clock delta for a tick (the real clock never runs
backwards). -/
def tickNonneg : GEvent → Prop
  | .tick dt _ => 0 ≤ dt
  | .pause _ => True

/-- How many adjacent pairs of a value trace cross a threshold upward. -/
def crossCount (thr : ℚ) : List ℚ → ℕ
  | a :: b :: rest => (if a < thr ∧ thr ≤ b then 1 else 0) + crossCount thr (b :: rest)
  | _ => 0

theorem setPaused_gameTime (b : Bool) (s : SceneState) :
    (setPaused b s).gameTime = s.gameTime := by
  cases b <;> simp [setPaused]

theorem setPaused_isPaused (b : Bool) (s : SceneState) :
    (setPaused b s).isPaused = b := by
  cases b <;> simp [setPaused]

theorem spawnObjects_gameTime (dt : ℚ) (o : SpawnOracle) (s : SceneState) :
    (spawnObjects dt o s).gameTime = s.gameTime := by
  unfold spawnObjects
  split
  · rfl
  · try dsimp only
    repeat' split
    all_goals simp [spawnFruit, spawnBomb]

theorem spawnObjects_isPaused (dt : ℚ) (o : SpawnOracle) (s : SceneState) :
    (spawnObjects dt o s).isPaused = s.isPaused := by
  unfold spawnObjects
  split
  · rfl
  · try dsimp only
    repeat' split
    all_goals simp [spawnFruit, spawnBomb]

theorem spawnObjects_spawnInterval (dt : ℚ) (o : SpawnOracle) (s : SceneState)
    (h : s.spawnInterval ≠ 0) :
    (spawnObjects dt o s).spawnInterval = s.spawnInterval := by
  unfold spawnObjects
  split
  · rfl
  · simp only [if_neg h]
    try dsimp only
    repeat' split
    all_goals simp [spawnFruit, spawnBomb]

theorem checkCuttingCollisions_gameTime (proj : Vec3 → Pt) (s : SceneState) :
    (checkCuttingCollisions proj s).1.gameTime = s.gameTime := by
  unfold checkCuttingCollisions
  split <;> rfl

theorem checkCuttingCollisions_isPaused (proj : Vec3 → Pt) (s : SceneState) :
    (checkCuttingCollisions proj s).1.isPaused = s.isPaused := by
  unfold checkCuttingCollisions
  split <;> rfl

theorem checkCuttingCollisions_spawnInterval (proj : Vec3 → Pt) (s : SceneState) :
    (checkCuttingCollisions proj s).1.spawnInterval = s.spawnInterval := by
  unfold checkCuttingCollisions
  split <;> rfl

theorem animate_gameTime (proj : Vec3 → Pt) (dt : ℚ) (o : SpawnOracle)
    (s : SceneState) : (animate proj dt o s).1.gameTime = s.gameTime + dt := by
  show (cleanupObjects (checkCuttingCollisions proj (preCollision dt o s)).1).gameTime
    = s.gameTime + dt
  rw [show ∀ u : SceneState, (cleanupObjects u).gameTime = u.gameTime from fun u => rfl,
    checkCuttingCollisions_gameTime]
  show (spawnObjects dt o (updateDifficulty { s with gameTime := s.gameTime + dt })).gameTime
    = s.gameTime + dt
  rw [spawnObjects_gameTime]
  rfl

theorem animate_isPaused (proj : Vec3 → Pt) (dt : ℚ) (o : SpawnOracle)
    (s : SceneState) : (animate proj dt o s).1.isPaused = s.isPaused := by
  show (cleanupObjects (checkCuttingCollisions proj (preCollision dt o s)).1).isPaused
    = s.isPaused
  rw [show ∀ u : SceneState, (cleanupObjects u).isPaused = u.isPaused from fun u => rfl,
    checkCuttingCollisions_isPaused]
  show (spawnObjects dt o (updateDifficulty { s with gameTime := s.gameTime + dt })).isPaused
    = s.isPaused
  rw [spawnObjects_isPaused]
  rfl

theorem spawnIntervalOf_ne_zero (t : ℚ) : spawnIntervalOf t ≠ 0 := by
  unfold spawnIntervalOf
  split
  · norm_num
  · split <;> norm_num

theorem animate_spawnInterval (proj : Vec3 → Pt) (dt : ℚ) (o : SpawnOracle)
    (s : SceneState) :
    (animate proj dt o s).1.spawnInterval = spawnIntervalOf (s.gameTime + dt) := by
  show (cleanupObjects (checkCuttingCollisions proj (preCollision dt o s)).1).spawnInterval
    = spawnIntervalOf (s.gameTime + dt)
  rw [show ∀ u : SceneState, (cleanupObjects u).spawnInterval = u.spawnInterval
      from fun u => rfl,
    checkCuttingCollisions_spawnInterval]
  show (spawnObjects dt o (updateDifficulty { s with gameTime := s.gameTime + dt })).spawnInterval
    = spawnIntervalOf (s.gameTime + dt)
  rw [spawnObjects_spawnInterval _ _ _ (by
    show spawnIntervalOf (s.gameTime + dt) ≠ 0
    exact spawnIntervalOf_ne_zero _)]
  rfl

end GameScene

namespace GameScene

theorem chain_le_getLastD (b : ℚ) (l : List ℚ)
    (h : List.Chain (· ≤ ·) b l) : b ≤ l.getLastD b := by
  induction l generalizing b with
  | nil => simp
  | cons c l ih =>
    rcases List.chain_cons.mp h with ⟨hbc, hcl⟩
    calc b ≤ c := hbc
      _ ≤ l.getLastD c := ih c hcl
      _ = (c :: l).getLastD b := by rw [List.getLastD_cons]

theorem crossCount_chain (thr : ℚ) (l : List ℚ) (a : ℚ)
    (h : List.Chain (· ≤ ·) a l) :
    crossCount thr (a :: l) = if a < thr ∧ thr ≤ l.getLastD a then 1 else 0 := by
  induction l generalizing a with
  | nil =>
    rw [show crossCount thr [a] = 0 from rfl, eq_comm, if_neg]
    rintro ⟨h1, h2⟩
    simp at h2
    linarith
  | cons b l ih =>
    rcases List.chain_cons.mp h with ⟨hab, hbl⟩
    have hrec := ih b hbl
    have hlast : b ≤ l.getLastD b := chain_le_getLastD b l hbl
    rw [show crossCount thr (a :: b :: l)
        = (if a < thr ∧ thr ≤ b then 1 else 0) + crossCount thr (b :: l)
      from rfl]
    rw [hrec, List.getLastD_cons]
    by_cases h1 : a < thr
    · by_cases h2 : thr ≤ b
      · rw [if_pos ⟨h1, h2⟩, if_neg (fun hc => absurd hc.1 (not_lt.mpr h2)),
          if_pos ⟨h1, le_trans h2 hlast⟩]
      · have hb : b < thr := lt_of_not_le h2
        rw [if_neg (fun hc => absurd hc.2 h2)]
        by_cases h3 : thr ≤ l.getLastD b
        · rw [if_pos ⟨hb, h3⟩, if_pos ⟨h1, h3⟩]
        · rw [if_neg (fun hc => absurd hc.2 h3), if_neg (fun hc => absurd hc.2 h3)]
    · have ha : thr ≤ a := not_lt.mp h1
      have hb' : thr ≤ b := le_trans ha hab
      rw [if_neg (fun hc => absurd hc.1 h1),
        if_neg (fun hc => absurd hc.1 (not_lt.mpr hb')),
        if_neg (fun hc => absurd hc.1 h1)]

theorem gameTimes_chain (proj : Vec3 → Pt) (es : List GEvent) (s : SceneState)
    (h : ∀ e ∈ es, tickNonneg e) :
    List.Chain (· ≤ ·) s.gameTime (gameTimes proj s es) := by
  induction es generalizing s with
  | nil => exact List.Chain.nil
  | cons e es ih =>
    rw [gameTimes]
    refine List.chain_cons.mpr ⟨?_,
      ih (sceneStep proj s e) (fun x hx => h x (List.mem_cons_of_mem e hx))⟩
    cases e with
    | tick dt o =>
      have hdt : 0 ≤ dt := h _ (List.mem_cons_self _ _)
      show s.gameTime ≤ (animate proj dt o s).1.gameTime
      rw [animate_gameTime]
      linarith
    | pause b =>
      show s.gameTime ≤ (setPaused b s).gameTime
      rw [setPaused_gameTime]

theorem gameTimes_getLastD (proj : Vec3 → Pt) (es : List GEvent)
    (s : SceneState) :
    (gameTimes proj s es).getLastD s.gameTime = (runScene proj s es).gameTime := by
  induction es generalizing s with
  | nil => rfl
  | cons e es ih =>
    rw [gameTimes, List.getLastD_cons, runScene, List.foldl_cons]
    exact ih (sceneStep proj s e)

theorem runScene_gameTime_clockStopped (proj : Vec3 → Pt) (es : List GEvent)
    (s : SceneState) (h : clockStopped proj s es) :
    (runScene proj s es).gameTime = s.gameTime + sumUnpaused s.isPaused es := by
  induction es generalizing s with
  | nil => simp [runScene, sumUnpaused]
  | cons e es ih =>
    cases e with
    | tick dt o =>
      rw [clockStopped] at h
      obtain ⟨hdt, hrest⟩ := h
      rw [runScene, List.foldl_cons,
        show (es.foldl (sceneStep proj) (sceneStep proj s (.tick dt o)))
          = runScene proj (sceneStep proj s (.tick dt o)) es from rfl,
        ih _ hrest]
      have hpause : (sceneStep proj s (.tick dt o)).isPaused = s.isPaused :=
        animate_isPaused proj dt o s
      have hstep : (sceneStep proj s (.tick dt o)).gameTime = s.gameTime + dt :=
        animate_gameTime proj dt o s
      rw [hpause, hstep, sumUnpaused]
      by_cases hp : s.isPaused = true
      · rw [hdt hp]
        simp [hp]
      · have hp' : s.isPaused = false := by simpa using hp
        simp [hp']
        ring
    | pause b =>
      rw [clockStopped] at h
      rw [runScene, List.foldl_cons,
        show (es.foldl (sceneStep proj) (sceneStep proj s (.pause b)))
          = runScene proj (sceneStep proj s (.pause b)) es from rfl]
      rw [show sceneStep proj s (.pause b) = setPaused b s from rfl]
      rw [ih _ h, setPaused_gameTime, setPaused_isPaused]
      rfl

end GameScene

namespace GameScene

theorem spawnObjects_spec (dt : ℚ) (o : SpawnOracle) (s : SceneState)
    (hp : s.isPaused = false) (hi : s.spawnInterval ≠ 0) :
    ((s.spawnInterval ≤ s.gameTime - s.lastSpawnTime →
      ((spawnObjects dt o s).lastSpawnTime = s.gameTime
        ∧ (spawnObjects dt o s).fruits.length + (spawnObjects dt o s).bombs.length
            = s.fruits.length + s.bombs.length + 1))
    ∧ (¬(s.spawnInterval ≤ s.gameTime - s.lastSpawnTime) →
        spawnObjects dt o s = s)) := by
  constructor
  · intro hc
    simp only [spawnObjects, hp, Bool.false_eq_true, if_false, if_neg hi,
      if_pos hc]
    split <;> simp [spawnFruit, spawnBomb] <;> omega
  · intro hc
    simp only [spawnObjects, hp, Bool.false_eq_true, if_false, if_neg hi,
      if_neg hc]

end GameScene

/-- C5: the spawn interval is the step function of accumulated game time
(5/2 s before 20 s, 3/2 s before 40 s, 1 s after — written as fractions of
the source's 2.5/1.5/1.0); on an unpaused tick exactly one object is
spawned when gameTime - lastSpawnTime has reached the current interval, and
lastSpawnTime is then rebased to gameTime, while a tick short of the
interval leaves the scheduler untouched; for clock-consistent runs (the
external THREE.Clock is stopped while paused, so paused ticks carry delta
0) gameTime is exactly the sum of the unpaused deltas, so paused time does
not count toward the thresholds; and along any run with nonnegative deltas
whose accumulated unpaused time reaches 20 s (resp. 40 s), the gameTime
trace crosses the 20 s (resp. 40 s) threshold exactly once. -/
theorem C5_spawn_scheduler :
    (∀ (proj : GameScene.Vec3 → GameScene.Pt) (dt : ℚ)
        (o : GameScene.SpawnOracle) (s : GameScene.SceneState),
      (GameScene.animate proj dt o s).1.spawnInterval
        = GameScene.spawnIntervalOf (s.gameTime + dt))
    ∧ (∀ (dt : ℚ) (o : GameScene.SpawnOracle) (s : GameScene.SceneState),
        s.isPaused = false → s.spawnInterval ≠ 0 →
        ((s.spawnInterval ≤ s.gameTime - s.lastSpawnTime →
          ((GameScene.spawnObjects dt o s).lastSpawnTime = s.gameTime
            ∧ (GameScene.spawnObjects dt o s).fruits.length
                + (GameScene.spawnObjects dt o s).bombs.length
              = s.fruits.length + s.bombs.length + 1))
        ∧ (¬(s.spawnInterval ≤ s.gameTime - s.lastSpawnTime) →
            GameScene.spawnObjects dt o s = s)))
    ∧ (∀ (proj : GameScene.Vec3 → GameScene.Pt) (es : List GameScene.GEvent)
        (s : GameScene.SceneState),
        GameScene.clockStopped proj s es →
        (GameScene.runScene proj s es).gameTime
          = s.gameTime + GameScene.sumUnpaused s.isPaused es)
    ∧ (∀ (proj : GameScene.Vec3 → GameScene.Pt) (es : List GameScene.GEvent),
        (∀ e ∈ es, GameScene.tickNonneg e) →
        ((20 ≤ (GameScene.runScene proj GameScene.resetState es).gameTime →
            GameScene.crossCount 20
              (GameScene.resetState.gameTime
                :: GameScene.gameTimes proj GameScene.resetState es) = 1)
          ∧ (40 ≤ (GameScene.runScene proj GameScene.resetState es).gameTime →
            GameScene.crossCount 40
              (GameScene.resetState.gameTime
                :: GameScene.gameTimes proj GameScene.resetState es) = 1))) := by
  refine ⟨GameScene.animate_spawnInterval, GameScene.spawnObjects_spec,
    GameScene.runScene_gameTime_clockStopped, ?_⟩
  intro proj es hnn
  have hchain := GameScene.gameTimes_chain proj es GameScene.resetState hnn
  have hlast := GameScene.gameTimes_getLastD proj es GameScene.resetState
  constructor
  · intro hge
    rw [GameScene.crossCount_chain 20 _ _ hchain]
    rw [if_pos ⟨by norm_num [GameScene.resetState], by rw [hlast]; exact hge⟩]
  · intro hge
    rw [GameScene.crossCount_chain 40 _ _ hchain]
    rw [if_pos ⟨by norm_num [GameScene.resetState], by rw [hlast]; exact hge⟩]

/-- Random draws used by the C5 witness run. -/
def c5Oracle : GameScene.SpawnOracle :=
  { kindRoll := 0, fruitType := "apple", position := ⟨0, 0, 0⟩,
    velocity := ⟨0, 0, 0⟩, angularVelocity := ⟨0, 0, 0⟩ }

/-- The C5 witness run: resume, then two unpaused ticks of 25 s and 20 s. -/
def c5Events : List GameScene.GEvent :=
  [.pause false, .tick 25 c5Oracle, .tick 20 c5Oracle]

/-- Witness for C5: over a resume followed by ticks of 25 s and 20 s the
game time reaches 45 s and each threshold is crossed exactly once. -/
theorem C5_spawn_scheduler_witness :
    (20 ≤ (GameScene.runScene projXY GameScene.resetState c5Events).gameTime
      ∧ GameScene.crossCount 20
          (GameScene.resetState.gameTime
            :: GameScene.gameTimes projXY GameScene.resetState c5Events) = 1
      ∧ GameScene.crossCount 40
          (GameScene.resetState.gameTime
            :: GameScene.gameTimes projXY GameScene.resetState c5Events) = 1) := by
  have h := C5_spawn_scheduler
  have hp0 : (GameScene.setPaused false GameScene.resetState).isPaused = false := by
    rw [GameScene.setPaused_isPaused]
  have hp1 : (GameScene.sceneStep projXY
      (GameScene.setPaused false GameScene.resetState)
      (.tick 25 c5Oracle)).isPaused = false := by
    show (GameScene.animate projXY 25 c5Oracle _).1.isPaused = false
    rw [GameScene.animate_isPaused, GameScene.setPaused_isPaused]
  have hclock : GameScene.clockStopped projXY GameScene.resetState c5Events := by
    simp only [c5Events, GameScene.clockStopped]
    refine ⟨fun hc => ?_, fun hc => ?_, trivial⟩
    · rw [hp0] at hc
      simp at hc
    · rw [hp1] at hc
      simp at hc
  have hnn : ∀ e ∈ c5Events, GameScene.tickNonneg e := by
    intro e he
    fin_cases he <;> norm_num [GameScene.tickNonneg]
  have hgt : (GameScene.runScene projXY GameScene.resetState c5Events).gameTime
      = 45 := by
    rw [h.2.2.1 projXY c5Events GameScene.resetState hclock]
    norm_num [GameScene.sumUnpaused, c5Events, GameScene.resetState]
  exact ⟨by rw [hgt]; norm_num,
    (h.2.2.2 projXY c5Events hnn).1 (by rw [hgt]; norm_num),
    (h.2.2.2 projXY c5Events hnn).2 (by rw [hgt]; norm_num)⟩
